import Mathlib

/-!
Verification of the objective-clarification core of the Project Manager MCP
server (`mcp-servers/project_mcp.py`): the vagueness detector, the question
sequencer, the clarity scorer, the weak-area reporter, the objective-summary
builder, and the answer-submission / finalization state transitions.

Python strings are modelled as Lean `String` (a wrapper around `List Char`),
with explicit ASCII models of the Python primitives the code uses
(`str.lower`, `str.split`, `str.strip`, `str.startswith`, the `in` substring
test, `str.replace('_', ' ')`) and of the concrete regular expressions
appearing in the source. Python dicts that the code iterates over are
modelled as insertion-ordered association lists. Timestamps and file I/O are
environmental effects outside the model; persistence is modelled by
returning the updated state.
-/

set_option autoImplicit false

namespace ProjectMCP

/-! ### Character and string primitives -/

/-- ASCII whitespace, matching the Python `str.isspace` test / regex `\s` on the
ASCII fragment: space, tab, newline, carriage return, form feed, vertical
tab. -/
def isWs (c : Char) : Bool :=
  c = ' ' || c = '\t' || c = '\n' || c = '\x0d' || c = '\x0c' || c = '\x0b'

/-- ASCII lowercasing of one character (model of `str.lower` per char). -/
def lowerChar (c : Char) : Char :=
  if 'A' ≤ c && c ≤ 'Z' then Char.ofNat (c.toNat + 32) else c

/-- Model of Python `str.lower` (ASCII fragment). -/
def lowerStr (s : String) : String := ⟨s.data.map lowerChar⟩

/-- List-level startswith check. -/
def listHasPre : List Char → List Char → Bool
  | [], _ => true
  | _ :: _, [] => false
  | a :: as, b :: bs => a == b && listHasPre as bs

/-- Model of Python `s.startswith(p)` : `hasPre p s`. -/
def hasPre (p s : String) : Bool := listHasPre p.data s.data

/-- List-level substring containment. -/
def containsSub (needle : List Char) : List Char → Bool
  | [] => needle.isEmpty
  | c :: rest => listHasPre needle (c :: rest) || containsSub needle rest

/-- Model of Python `needle in hay` on strings. -/
def containsSubstr (needle hay : String) : Bool := containsSub needle.data hay.data

def isDigitCh (c : Char) : Bool := '0' ≤ c && c ≤ '9'

/-- Model of a digit search, `re.search` with pattern `\d` or `\d+`, as a Boolean:
the string contains a digit. -/
def hasDigit (s : String) : Bool := s.data.any isDigitCh

def isUpperAZ (c : Char) : Bool := 'A' ≤ c && c ≤ 'Z'

def isLowerAZ (c : Char) : Bool := 'a' ≤ c && c ≤ 'z'

/-- After an initial `[A-Z]` character has been consumed, check the rest of
the regex `[a-z]+\s+[A-Z][a-z]+` at this position. Because the character
classes `[a-z]`, `\s`, `[A-Z]` are pairwise disjoint, greedy matching
without backtracking is exact. -/
def pnTail (l : List Char) : Bool :=
  let low1 := l.takeWhile isLowerAZ
  let r1 := l.dropWhile isLowerAZ
  let ws1 := r1.takeWhile isWs
  let r2 := r1.dropWhile isWs
  !low1.isEmpty && !ws1.isEmpty &&
    (match r2 with
     | [] => false
     | c :: r3 => isUpperAZ c && !(r3.takeWhile isLowerAZ).isEmpty)

/-- Model of `re.search` with pattern `[A-Z][a-z]+\s+[A-Z][a-z]+` as a Boolean
(the "proper nouns" heuristic of `_detect_vague_answer`). -/
def hasProperNoun : List Char → Bool
  | [] => false
  | c :: rest => (isUpperAZ c && pnTail rest) || hasProperNoun rest

/-- Helper for `pySplit`: accumulates the current word (reversed). -/
def splitWsAux : List Char → List Char → List (List Char)
  | [], acc => if acc.isEmpty then [] else [acc.reverse]
  | c :: rest, acc =>
    if isWs c then
      if acc.isEmpty then splitWsAux rest []
      else acc.reverse :: splitWsAux rest []
    else splitWsAux rest (c :: acc)

/-- Model of Python `s.split()`: split on whitespace runs, discarding empty
tokens. -/
def pySplit (s : String) : List String := (splitWsAux s.data []).map fun l => ⟨l⟩

/-- Model of `category.replace('_', ' ')` (the argument is a single
character, so substring replacement is a character map). -/
def replace_underscores (s : String) : String :=
  ⟨s.data.map fun c => if c = '_' then ' ' else c⟩

/-- Model of Python `s.strip()` (ASCII whitespace). -/
def pyStrip (s : String) : String :=
  ⟨((s.data.dropWhile isWs).reverse.dropWhile isWs).reverse⟩

def isWordChar (c : Char) : Bool :=
  isLowerAZ c || isUpperAZ c || isDigitCh c || c = '_'

/-- If `w` is a prefix of `l`, return the remainder. -/
def dropPre : List Char → List Char → Option (List Char)
  | [], l => some l
  | _ :: _, [] => none
  | a :: as, b :: bs => if a == b then dropPre as bs else none

/-- Boundary success after a word that ends in a word character: next char absent or not
a word character. -/
def bAfterOk : List Char → Bool
  | [] => true
  | c :: _ => !isWordChar c

/-- Scan for an occurrence of the word `w` with `\b` boundaries on both
sides; `prev` is the character just before the current position. Exact for
words made of word characters, which all of the alternation words in the source
are. -/
def wordBAux (w : List Char) : Option Char → List Char → Bool
  | prev, [] =>
    (match dropPre w [] with
     | some rest =>
       (match prev with
        | none => true
        | some p => !isWordChar p) && bAfterOk rest
     | none => false)
  | prev, c :: rest =>
    (match dropPre w (c :: rest) with
     | some r =>
       (match prev with
        | none => true
        | some p => !isWordChar p) && bAfterOk r
     | none => false) || wordBAux w (some c) rest

/-- Model of a whole-word search, `re.search` with pattern `\bw\b`, as a Boolean. -/
def hasWordB (w : String) (s : String) : Bool := wordBAux w.data none s.data

/-! ### The vagueness detector (`_detect_vague_answer`) and its tables -/

/-- The table `VAGUE_PATTERNS` from the source, as an insertion-ordered association
list (Python dict iteration order). -/
def VAGUE_PATTERNS : List (String × String) :=
  [ ("people", "Which specific group of people? Can you name 3 examples?"),
    ("users", "What type of users exactly? Be specific."),
    ("better", "Better than what? By how much?"),
    ("faster", "How much faster? What\x27s the current speed?"),
    ("easier", "Easier than what? How is it currently difficult?"),
    ("improve", "Improve what specific metric? By how much?"),
    ("help", "Help them do what exactly? What\x27s the specific action?"),
    ("manage", "Manage what specifically? What data or process?"),
    ("track", "Track what data specifically? For what purpose?"),
    ("organize", "Organize what exactly? How is it currently disorganized?") ]

/-- Model of `VAGUE_PATTERNS.get(vague_word, "Can you be more specific?")`. -/
def vague_patterns_get (w : String) : String :=
  match VAGUE_PATTERNS.find? (fun p => p.1 == w) with
  | some p => p.2
  | none => "Can you be more specific?"

/-- The `vague_words_standalone` list from `_detect_vague_answer`. -/
def vague_words_standalone : List String :=
  ["people", "users", "better", "faster", "easier", "improve", "help",
   "manage", "track", "organize"]

/-- The four specificity-indicator phrases checked on `answer_lower`. -/
def specificity_indicators : List String :=
  ["for example", "such as", "specifically", "including"]

/-- The `has_specifics` disjunction inside `_detect_vague_answer`: digits,
a proper-noun pair, length over 200, or an indicator phrase in the lowered
text. -/
def has_specifics (answer : String) : Bool :=
  hasDigit answer || hasProperNoun answer.data || answer.length > 200 ||
    specificity_indicators.any fun indicator => containsSubstr indicator (lowerStr answer)

/-- The `vague_indicators` regex table: each pattern
`\b(w1|w2|...)\b` is modelled by its list of alternation words. -/
def vague_indicators : List (List String × String) :=
  [ (["someone", "anyone", "everyone"], "Who specifically? Give examples."),
    (["something", "anything", "everything"], "What specifically?"),
    (["somewhere", "anywhere", "everywhere"], "Where specifically?"),
    (["somehow", "anyhow"], "How specifically?") ]

def matchesAlt (ws : List String) (s : String) : Bool := ws.any fun w => hasWordB w s

/-- Model of `_detect_vague_answer(answer, question_id)`: returns
`(is_vague, follow_up)`. Follow-up ids (containing `_followup`) are accepted
unconditionally; answers over 100 characters get the standalone-word check
with specificity exemptions; short answers get the substring check against
`VAGUE_PATTERNS` and then the indefinite-pronoun regexes. -/
def detect_vague_answer (answer : String) (question_id : String) : Bool × Option String :=
  if question_id ≠ "" && containsSubstr "_followup" question_id then (false, none)
  else
    let answer_lower := lowerStr answer
    if answer.length > 100 then
      let words := pySplit answer_lower
      match vague_words_standalone.findSome? (fun vague_word =>
          if words.contains vague_word then
            if has_specifics answer then none
            else some (vague_patterns_get vague_word)
          else none) with
      | some follow_up => (true, some follow_up)
      | none => (false, none)
    else
      match VAGUE_PATTERNS.findSome?
          (fun p => if containsSubstr p.1 answer_lower then some p.2 else none) with
      | some follow_up => (true, some follow_up)
      | none =>
        match vague_indicators.findSome?
            (fun p => if matchesAlt p.1 answer_lower then some p.2 else none) with
        | some follow_up => (true, some follow_up)
        | none => (false, none)

/-! ### Answers, clarity scorer (`_calculate_clarity_score`), weak areas -/

/-- One recorded answer. The source also stores a timestamp
(`datetime.now()`), an environmental effect not modelled. -/
structure AnswerRec where
  answer : String
  deriving Repr, DecidableEq

/-- The `answers` dict of a session: question id to answer record, as an
insertion-ordered association list with unique keys. -/
abbrev AnswerMap := List (String × AnswerRec)

/-- Problem-specificity points: first answer whose id starts with
`problem_`. -/
def problem_points (answers : AnswerMap) : Nat :=
  let problem_answers := answers.filter fun kv => hasPre "problem_" kv.1
  match problem_answers with
  | [] => 0
  | a :: _ =>
    if a.2.answer.length > 50 then 20
    else if a.2.answer.length > 20 then 10
    else 0

/-- Target-user points: first answer whose id starts with `target_user`. -/
def user_points (answers : AnswerMap) : Nat :=
  let user_answers := answers.filter fun kv => hasPre "target_user" kv.1
  match user_answers with
  | [] => 0
  | a :: _ =>
    let answer_text := a.2.answer
    if hasDigit answer_text || containsSubstr "example" (lowerStr answer_text) then 20
    else if answer_text.length > 30 then 10
    else 0

/-- Solution points: count of answers whose id starts with `solution_`. -/
def solution_points (answers : AnswerMap) : Nat :=
  let solution_answers := answers.filter fun kv => hasPre "solution_" kv.1
  if solution_answers.isEmpty then 0
  else if solution_answers.length ≥ 3 then 20
  else if solution_answers.length ≥ 2 then 15
  else if solution_answers.length ≥ 1 then 10
  else 0

/-- Model of `" ".join(l)`. -/
def joinSpace : List String → String
  | [] => ""
  | [s] => s
  | s :: rest => s ++ " " ++ joinSpace rest

/-- Metrics points: the space-join of all answers whose id starts with
`success_metrics`. -/
def metrics_points (answers : AnswerMap) : Nat :=
  let metrics_answers := answers.filter fun kv => hasPre "success_metrics" kv.1
  if metrics_answers.isEmpty then 0
  else
    let answer_text := joinSpace (metrics_answers.map fun kv => kv.2.answer)
    if hasDigit answer_text then 20
    else if answer_text.length > 30 then 10
    else 0

/-- Constraints points: count of answers whose id starts with
`constraints`. -/
def constraints_points (answers : AnswerMap) : Nat :=
  let constraints_answers := answers.filter fun kv => hasPre "constraints" kv.1
  if constraints_answers.isEmpty then 0
  else if constraints_answers.length ≥ 3 then 20
  else if constraints_answers.length ≥ 2 then 15
  else if constraints_answers.length ≥ 1 then 10
  else 0

/-- Model of `_calculate_clarity_score`: sum of the five category point values,
capped at 100. -/
def calculate_clarity_score (answers : AnswerMap) : Nat :=
  min (problem_points answers + user_points answers + solution_points answers +
       metrics_points answers + constraints_points answers) 100

/-- The five category names, in the fixed traversal order. -/
def categories_list : List String :=
  ["problem_definition", "target_user", "solution", "success_metrics", "constraints"]

/-- Model of `_identify_weak_areas`: per category (matched as an id prefix),
`Missing` when no answer, `Needs more detail` when fewer than two. Note the
output replaces underscores by spaces. -/
def identify_weak_areas (answers : AnswerMap) : List String :=
  categories_list.flatMap fun category =>
    let category_answers := answers.filter fun kv => hasPre category kv.1
    if category_answers.isEmpty then ["Missing: " ++ replace_underscores category]
    else if category_answers.length < 2 then
      ["Needs more detail: " ++ replace_underscores category]
    else []

/-! ### Objective summary (`_generate_objective_summary`) -/

structure Summary where
  problem : String
  target_user : String
  solution : String
  success_metrics : String
  constraints : String
  deriving Repr, DecidableEq

/-- One iteration of the summary loop: route the answer to the first
category whose prefix matches its id, appending the text and a space. -/
def summary_step (acc : Summary) (kv : String × AnswerRec) : Summary :=
  let answer := kv.2.answer
  if hasPre "problem_" kv.1 then { acc with problem := acc.problem ++ answer ++ " " }
  else if hasPre "target_user" kv.1 then
    { acc with target_user := acc.target_user ++ answer ++ " " }
  else if hasPre "solution_" kv.1 then
    { acc with solution := acc.solution ++ answer ++ " " }
  else if hasPre "success_metrics" kv.1 then
    { acc with success_metrics := acc.success_metrics ++ answer ++ " " }
  else if hasPre "constraints" kv.1 then
    { acc with constraints := acc.constraints ++ answer ++ " " }
  else acc

/-- Model of `_generate_objective_summary`: accumulate per-category text, then strip
each field. -/
def generate_objective_summary (answers : AnswerMap) : Summary :=
  let s := answers.foldl summary_step ⟨"", "", "", "", ""⟩
  ⟨pyStrip s.problem, pyStrip s.target_user, pyStrip s.solution,
   pyStrip s.success_metrics, pyStrip s.constraints⟩

/-! ### Questions and the sequencer (`_generate_next_question`) -/

structure Question where
  id : String
  category : String
  question : String
  answered : Bool
  parent_question : Option String := none
  deriving Repr, DecidableEq

/-- The table `QUESTION_FRAMEWORK` from the source. -/
def QUESTION_FRAMEWORK : List (String × List String) :=
  [ ("problem_definition",
     [ "What specific problem are you solving?",
       "Who exactly experiences this problem?",
       "How do they currently handle this problem?",
       "Why is the current solution inadequate?",
       "What happens if this problem isn\x27t solved?" ]),
    ("target_user",
     [ "Who will use this? Be specific.",
       "Can you name 3 specific examples of this type of person/company?",
       "What do they do for a living or in their role?",
       "What\x27s their current workflow for this?" ]),
    ("solution",
     [ "What will you build to solve this problem?",
       "What is the ONE core feature that solves the problem?",
       "What\x27s the absolute minimum that would work?",
       "What features are you NOT building in version 1?" ]),
    ("success_metrics",
     [ "How will you know if this is successful?",
       "What specific number indicates success?",
       "How do you measure that?",
       "By when do you want to achieve this?" ]),
    ("constraints",
     [ "What\x27s your timeline for version 1?",
       "What technologies must you use?",
       "What\x27s non-negotiable? What cannot be compromised?",
       "What resources do you have (time, skills, budget)?" ]) ]

/-- Model of `QUESTION_FRAMEWORK.get(category, [])`. -/
def qf_get (category : String) : List String :=
  match QUESTION_FRAMEWORK.find? (fun p => p.1 == category) with
  | some p => p.2
  | none => []

def category_order : List String :=
  ["problem_definition", "target_user", "solution", "success_metrics", "constraints"]

/-- Categories of answered questions that are not follow-ups. -/
def answered_categories (questions : List Question) : List String :=
  (questions.filter fun q => q.answered && q.category != "follow_up").map
    fun q => q.category

/-- The body of the per-category loop iteration of the sequencer. -/
def gen_for_category (questions : List Question) (answered : List String)
    (category : String) : Option Question :=
  if answered.contains category then none
  else
    let qlist := qf_get category
    if qlist.isEmpty then none
    else
      let question_num := (questions.filter fun q => q.category == category).length + 1
      if question_num ≤ qlist.length then
        some { id := category ++ "_" ++ toString question_num,
               category := category,
               question := qlist.getD (question_num - 1) "",
               answered := false }
      else none

/-- Model of `_generate_next_question`: walk the categories in order, returning the
first generated question, or `none` when every category is answered (or
exhausted). -/
def generate_next_question (questions : List Question) : Option Question :=
  category_order.findSome? (gen_for_category questions (answered_categories questions))

/-! ### Session state and the tool-level operations -/

structure Clarification where
  status : String
  initial_description : String
  questions : List Question
  answers : AnswerMap
  current_question_id : Option String
  deriving Repr

/-- The finalized objective record (`data["objective"]`); the source also
stores a `defined_at` timestamp, not modelled. -/
structure Objective where
  problem : String
  target_user : String
  solution : String
  success_metrics : String
  constraints : String
  clarity_score : Nat
  deriving Repr, DecidableEq

/-- The per-project persisted state relevant to the clarification core. -/
structure ProjectData where
  objective : Option Objective
  objective_clarification : Clarification
  deriving Repr

/-- The hardcoded first question created by `clarify_project_objective`. -/
def first_question : Question :=
  { id := "problem_1", category := "problem_definition",
    question := "What specific problem are you solving?", answered := false }

/-- The fresh clarification session installed by
`clarify_project_objective`. -/
def clarify_session (initial_description : String) : Clarification :=
  { status := "in_progress", initial_description := initial_description,
    questions := [first_question], answers := [],
    current_question_id := some "problem_1" }

/-- Model of `clarify_project_objective` (state effect): reset the clarification
session and ask the first question. -/
def clarify_project_objective (data : ProjectData) (initial_description : String) :
    ProjectData :=
  { data with objective_clarification := clarify_session initial_description }

/-- Python dict assignment `answers[question_id] = v`: overwrite in place if
present, else append. -/
def insertAnswer (m : AnswerMap) (k : String) (v : AnswerRec) : AnswerMap :=
  if m.any (fun kv => kv.1 == k) then
    m.map fun kv => if kv.1 == k then (k, v) else kv
  else m ++ [(k, v)]

/-- Dict lookup `answers.get(k)`. -/
def lookupAnswer (k : String) (m : AnswerMap) : Option AnswerRec :=
  match m.find? (fun kv => kv.1 == k) with
  | some kv => some kv.2
  | none => none

/-- The `for q in questions: if q.id == question_id: q.answered = True; break`
loop: mark only the first matching question. -/
def mark_answered : List Question → String → List Question
  | [], _ => []
  | q :: rest, question_id =>
    if q.id == question_id then { q with answered := true } :: rest
    else q :: mark_answered rest question_id

/-- The structured result of `answer_objective_question`. -/
structure AnswerResult where
  status : String
  message : String := ""
  next_question : Option (String × String) := none
  clarity_score : Option Nat := none
  summary : Option Summary := none
  weak_areas : Option (List String) := none
  deriving Repr

/-- The body of `answer_objective_question` acting on the clarification
record: store the answer, mark the question, run the detector, then either
append a follow-up, append the next sequencer question, or score. -/
def answer_clar (c : Clarification) (question_id : String) (answer : String) :
    AnswerResult × Clarification :=
  let answers1 := insertAnswer c.answers question_id { answer := answer }
  let questions1 := mark_answered c.questions question_id
  let vres := detect_vague_answer answer question_id
  if vres.1 then
    let follow_up_id := question_id ++ "_followup"
    let follow_up_question : Question :=
      { id := follow_up_id, category := "follow_up",
        question := (vres.2).getD "", answered := false,
        parent_question := some question_id }
    ({ status := "needs_clarification",
       message := "Answer is too vague. Please be more specific.",
       next_question := some (follow_up_id, (vres.2).getD "") },
     { c with answers := answers1,
              questions := questions1 ++ [follow_up_question],
              current_question_id := some follow_up_id })
  else
    match generate_next_question questions1 with
    | some next_q =>
      ({ status := "continue", message := "Good answer! Next question:",
         next_question := some (next_q.id, next_q.question) },
       { c with answers := answers1,
                questions := questions1 ++ [next_q],
                current_question_id := some next_q.id })
    | none =>
      let score := calculate_clarity_score answers1
      if score ≥ 80 then
        ({ status := "completed", message := "Objective clarification complete!",
           clarity_score := some score,
           summary := some (generate_objective_summary answers1) },
         { c with answers := answers1, questions := questions1,
                  status := "completed" })
      else
        ({ status := "needs_improvement",
           clarity_score := some score,
           message := "Clarity score is " ++ toString score ++
             "/100. Need â‰¥80. Let\x27s clarify further.",
           weak_areas := some (identify_weak_areas answers1) },
         { c with answers := answers1, questions := questions1,
                  status := "needs_improvement" })

/-- Model of `answer_objective_question` at the persisted-state level. -/
def answer_objective_question (data : ProjectData) (question_id : String)
    (answer : String) : AnswerResult × ProjectData :=
  let rc := answer_clar data.objective_clarification question_id answer
  (rc.1, { data with objective_clarification := rc.2 })

/-- The structured result of `define_project_objective`. -/
structure DefineResult where
  success : Bool
  error : Option String := none
  action : Option String := none
  message : Option String := none
  objective : Option Objective := none
  project_plan_created : Bool := false
  deriving Repr

/-- Model of `define_project_objective`: finalize when the recomputed score reaches
80, otherwise fail, returning before any state is saved (the second
component is the persisted state after the call). -/
def define_project_objective (data : ProjectData) : DefineResult × ProjectData :=
  let clarification := data.objective_clarification
  let score := calculate_clarity_score clarification.answers
  if score < 80 then
    ({ success := false,
       error := some ("Objective not clear enough (score: " ++ toString score ++
         "/100). Need â‰¥80."),
       action := some "Run clarify_project_objective to improve" },
     data)
  else
    let s := generate_objective_summary clarification.answers
    let objective : Objective :=
      { problem := s.problem, target_user := s.target_user, solution := s.solution,
        success_metrics := s.success_metrics, constraints := s.constraints,
        clarity_score := score }
    ({ success := true, message := some "Project objective defined and stored",
       objective := some objective, project_plan_created := true },
     { data with objective := some objective })

/-- Clarification sessions produced by the normal flow: start a session,
then repeatedly answer the current question. -/
inductive Reachable : Clarification → Prop where
  | start (initial_description : String) : Reachable (clarify_session initial_description)
  | step (c : Clarification) (question_id answer : String) :
      Reachable c → c.current_question_id = some question_id →
      Reachable (answer_clar c question_id answer).2

/-! ### Shared helper lemmas -/

theorem string_data_append (s t : String) : (s ++ t).data = s.data ++ t.data := by
  cases s; cases t; rfl

theorem listHasPre_append (p : List Char) :
    ∀ l m : List Char, listHasPre p l = true → listHasPre p (l ++ m) = true := by
  induction p with
  | nil => intro l m _; rfl
  | cons a as ih =>
    intro l m h
    cases l with
    | nil => simp [listHasPre] at h
    | cons c cs =>
      simp only [listHasPre, Bool.and_eq_true] at h ⊢
      exact ⟨h.1, ih cs m h.2⟩

theorem listHasPre_refl : ∀ l : List Char, listHasPre l l = true := by
  intro l
  induction l with
  | nil => rfl
  | cons c cs ih => simp [listHasPre, ih]

theorem hasPre_append (p s t : String) (h : hasPre p s = true) :
    hasPre p (s ++ t) = true := by
  unfold hasPre at h ⊢
  rw [string_data_append]
  exact listHasPre_append _ _ _ h

theorem hasPre_self_append (p t : String) : hasPre p (p ++ t) = true := by
  apply hasPre_append
  unfold hasPre
  exact listHasPre_refl _

theorem containsSub_right (n : List Char) :
    ∀ l m : List Char, containsSub n m = true → containsSub n (l ++ m) = true := by
  intro l
  induction l with
  | nil => intro m h; exact h
  | cons c cs ih =>
    intro m h
    simp only [List.cons_append, containsSub, Bool.or_eq_true]
    exact Or.inr (ih m h)

theorem containsSub_self (n : List Char) : containsSub n n = true := by
  cases n with
  | nil => rfl
  | cons c cs => simp [containsSub, listHasPre_refl]

theorem containsSubstr_suffix_self (s w : String) :
    containsSubstr w (s ++ w) = true := by
  unfold containsSubstr
  rw [string_data_append]
  exact containsSub_right _ _ _ (containsSub_self _)

/-- If two strings are both prefixes of a third, one is a prefix of the
other. -/
theorem listHasPre_total :
    ∀ (k a b : List Char), listHasPre a k = true → listHasPre b k = true →
      listHasPre a b = true ∨ listHasPre b a = true := by
  intro k
  induction k with
  | nil =>
    intro a b ha hb
    cases a with
    | nil => exact Or.inl rfl
    | cons x xs => simp [listHasPre] at ha
  | cons c cs ih =>
    intro a b ha hb
    cases a with
    | nil => exact Or.inl rfl
    | cons x xs =>
      cases b with
      | nil => exact Or.inr rfl
      | cons y ys =>
        simp only [listHasPre, Bool.and_eq_true, beq_iff_eq] at ha hb
        rcases ih xs ys ha.2 hb.2 with h | h
        · exact Or.inl (by simp [listHasPre, ha.1, hb.1, h])
        · exact Or.inr (by simp [listHasPre, ha.1, hb.1, h])

/-- Two prefix patterns, neither a prefix of the other, never both match. -/
theorem hasPre_excl {p q : String}
    (hp : listHasPre p.data q.data = false) (hq : listHasPre q.data p.data = false)
    {k : String} (h1 : hasPre p k = true) (h2 : hasPre q k = true) : False := by
  rcases listHasPre_total k.data p.data q.data h1 h2 with h | h
  · rw [hp] at h; exact Bool.false_ne_true h
  · rw [hq] at h; exact Bool.false_ne_true h

theorem hasPre_excl_false {p q : String}
    (hp : listHasPre p.data q.data = false) (hq : listHasPre q.data p.data = false)
    {k : String} (h1 : hasPre p k = true) : hasPre q k = false := by
  cases h2 : hasPre q k with
  | false => rfl
  | true => exact absurd (hasPre_excl hp hq h1 h2) not_false

/-- The termination rule of `_detect_vague_answer`: any follow-up id is
accepted unconditionally. -/
theorem detect_followup_eq (answer question_id : String)
    (h : containsSubstr "_followup" question_id = true) :
    detect_vague_answer answer question_id = (false, none) := by
  have hne : question_id ≠ "" := by
    intro he
    rw [he] at h
    exact absurd h (by decide)
  unfold detect_vague_answer
  simp [hne, h]

/-! ### Claim C1 -/

/-- C1: for every answer text (including the empty string, strings
containing every vague word, and nonsense text) and every question id
containing the literal `_followup` marker, the vagueness classifier returns
`(is_vague := false, follow_up := none)`. -/
theorem C1_followup_always_accepted (answer question_id : String)
    (h : containsSubstr "_followup" question_id = true) :
    detect_vague_answer answer question_id = (false, none) :=
  detect_followup_eq answer question_id h

theorem C1_followup_always_accepted_witness :
    containsSubstr "_followup" "problem_1_followup" = true ∧
    detect_vague_answer
      "people users better faster easier improve help manage track organize something"
      "problem_1_followup" = (false, none) :=
  ⟨by decide, C1_followup_always_accepted _ _ (by decide)⟩

/-! ### Claim C5 -/

/-- C5 counterexample: the answer `"people"` to `target_user_1` is detected
as vague, but the follow-up is the `"people"` pattern (the first
`VAGUE_PATTERNS` entry whose key is a substring), not the claimed `"users"`
pattern text `"What type of users exactly? Be specific."`. -/
theorem C5_counterexample :
    detect_vague_answer "people" "target_user_1" ≠
      (true, some "What type of users exactly? Be specific.") := by
  decide

/-- C5 amended: the answer `"people"` (6 characters) to the non-follow-up id
`target_user_1` is classified vague with the follow-up text of the
`"people"` pattern, `"Which specific group of people? Can you name 3
examples?"`. -/
theorem C5_people_followup_text :
    detect_vague_answer "people" "target_user_1" =
      (true, some "Which specific group of people? Can you name 3 examples?") := by
  decide

/-! ### Claim C7 -/

/-- C7: every answer longer than 100 characters whose lowercasing contains
the phrase `"for example"` is classified not vague (for any question id):
the specificity signal exempts every standalone vague-word candidate. -/
theorem C7_long_answer_with_example_not_vague (answer question_id : String)
    (hlen : answer.length > 100)
    (hex : containsSubstr "for example" (lowerStr answer) = true) :
    detect_vague_answer answer question_id = (false, none) := by
  have hspec : has_specifics answer = true := by
    unfold has_specifics
    have : specificity_indicators.any
        (fun indicator => containsSubstr indicator (lowerStr answer)) = true := by
      simp only [specificity_indicators, List.any_cons, Bool.or_eq_true]
      exact Or.inl hex
    simp [this]
  by_cases hf : containsSubstr "_followup" question_id = true
  · exact detect_followup_eq answer question_id hf
  · unfold detect_vague_answer
    have hnone : vague_words_standalone.findSome? (fun vague_word =>
        if (pySplit (lowerStr answer)).contains vague_word then
          if has_specifics answer then none
          else some (vague_patterns_get vague_word)
        else none) = none := by
      simp [vague_words_standalone, List.findSome?, hspec]
    simp only [Bool.and_eq_true, decide_eq_true_eq]
    rw [if_neg (by intro hc; exact hf hc.2)]
    simp only [hlen, if_pos, gt_iff_lt]
    rw [hnone]

set_option maxRecDepth 8192 in
theorem C7_long_answer_with_example_not_vague_witness :
    ("The goal is to improve our claims intake workflow, for example by cutting the manual review queue from twelve steps down to a few quick checks" : String).length > 100 ∧
    containsSubstr "for example"
      (lowerStr "The goal is to improve our claims intake workflow, for example by cutting the manual review queue from twelve steps down to a few quick checks") = true ∧
    detect_vague_answer
      "The goal is to improve our claims intake workflow, for example by cutting the manual review queue from twelve steps down to a few quick checks"
      "problem_1" = (false, none) :=
  ⟨by decide, by decide,
    C7_long_answer_with_example_not_vague _ "problem_1" (by decide) (by decide)⟩

/-! ### Claim C2 -/

/-- Shared content of the finalize failure branch. -/
theorem define_fails_below (data : ProjectData)
    (h : calculate_clarity_score data.objective_clarification.answers < 80) :
    (define_project_objective data).1.success = false ∧
    (define_project_objective data).1.error =
      some ("Objective not clear enough (score: " ++
        toString (calculate_clarity_score data.objective_clarification.answers) ++
        "/100). Need â‰¥80.") ∧
    (define_project_objective data).2 = data ∧
    (define_project_objective data).2.objective = data.objective := by
  unfold define_project_objective
  simp [h]

/-- C2: when the clarity score is below 80, `define_project_objective`
returns a failure whose error message carries the current score, and the
persisted state is unchanged — in particular no objective record is
stored. -/
theorem C2_finalize_below_threshold (data : ProjectData)
    (h : calculate_clarity_score data.objective_clarification.answers < 80) :
    (define_project_objective data).1.success = false ∧
    (define_project_objective data).1.error =
      some ("Objective not clear enough (score: " ++
        toString (calculate_clarity_score data.objective_clarification.answers) ++
        "/100). Need â‰¥80.") ∧
    (define_project_objective data).2 = data ∧
    (define_project_objective data).2.objective = data.objective :=
  define_fails_below data h

theorem C2_finalize_below_threshold_witness :
    calculate_clarity_score
      (ProjectData.mk none (clarify_session "demo")).objective_clarification.answers < 80 ∧
    (define_project_objective (ProjectData.mk none (clarify_session "demo"))).1.success = false ∧
    (define_project_objective (ProjectData.mk none (clarify_session "demo"))).2 =
      ProjectData.mk none (clarify_session "demo") :=
  ⟨by decide,
   (C2_finalize_below_threshold (ProjectData.mk none (clarify_session "demo")) (by decide)).1,
   (C2_finalize_below_threshold (ProjectData.mk none (clarify_session "demo")) (by decide)).2.2.1⟩

/-! ### Claim C9 -/

/-- C9: if the answer mapping holds exactly one answer with id prefix
`solution_` (respectively `constraints`), adding a second answer with that
prefix (under a fresh id) never decreases that category sub-score in the
clarity scorer. -/
theorem C9_second_answer_monotone (answers : AnswerMap) (k : String) (v : AnswerRec)
    (hfresh : ∀ kv ∈ answers, kv.1 ≠ k) :
    ((answers.filter fun kv => hasPre "solution_" kv.1).length = 1 →
      hasPre "solution_" k = true →
      solution_points (insertAnswer answers k v) ≥ solution_points answers) ∧
    ((answers.filter fun kv => hasPre "constraints" kv.1).length = 1 →
      hasPre "constraints" k = true →
      constraints_points (insertAnswer answers k v) ≥ constraints_points answers) := by
  have hins : insertAnswer answers k v = answers ++ [(k, v)] := by
    unfold insertAnswer
    rw [if_neg]
    intro hany
    rw [List.any_eq_true] at hany
    rcases hany with ⟨kv, hkv, hbeq⟩
    exact hfresh kv hkv (eq_of_beq hbeq)
  constructor
  · intro h1 h2
    have hflt : (insertAnswer answers k v).filter (fun kv => hasPre "solution_" kv.1)
        = answers.filter (fun kv => hasPre "solution_" kv.1) ++ [(k, v)] := by
      rw [hins, List.filter_append]
      simp [h2]
    unfold solution_points
    rw [hflt]
    rcases List.length_eq_one.mp h1 with ⟨a, ha⟩
    rw [ha]
    simp
  · intro h1 h2
    have hflt : (insertAnswer answers k v).filter (fun kv => hasPre "constraints" kv.1)
        = answers.filter (fun kv => hasPre "constraints" kv.1) ++ [(k, v)] := by
      rw [hins, List.filter_append]
      simp [h2]
    unfold constraints_points
    rw [hflt]
    rcases List.length_eq_one.mp h1 with ⟨a, ha⟩
    rw [ha]
    simp

theorem C9_second_answer_monotone_witness :
    solution_points (insertAnswer [("solution_1", ⟨"build the importer"⟩)]
        "solution_2" ⟨"keep scope tight"⟩) ≥
      solution_points [("solution_1", ⟨"build the importer"⟩)] ∧
    constraints_points (insertAnswer [("constraints_1", ⟨"four weeks"⟩)]
        "constraints_2" ⟨"python only"⟩) ≥
      constraints_points [("constraints_1", ⟨"four weeks"⟩)] :=
  ⟨(C9_second_answer_monotone _ _ _ (by decide)).1 (by decide) (by decide),
   (C9_second_answer_monotone _ _ _ (by decide)).2 (by decide) (by decide)⟩

/-! ### Claim C8 -/

theorem answered_categories_contains (questions : List Question) (category : String)
    (hne : category ≠ "follow_up")
    (h : ∃ q ∈ questions, q.category = category ∧ q.answered = true) :
    (answered_categories questions).contains category = true := by
  rcases h with ⟨q, hq, hqc, hqa⟩
  have hmem : category ∈ answered_categories questions := by
    unfold answered_categories
    apply List.mem_map.mpr
    refine ⟨q, List.mem_filter.mpr ⟨hq, ?_⟩, hqc⟩
    rw [hqa, hqc]
    simp [hne]
  exact List.elem_iff.mpr hmem

/-- C8: when every one of the five fixed categories has at least one
answered question of that category in the session (such a question is
never of the `follow_up` pseudo-category), the sequencer returns none. -/
theorem C8_sequencer_exhaustion (questions : List Question)
    (h : ∀ category ∈ category_order,
      ∃ q ∈ questions, q.category = category ∧ q.answered = true) :
    generate_next_question questions = none := by
  have g : ∀ category ∈ category_order,
      gen_for_category questions (answered_categories questions) category = none := by
    intro category hcat
    have hne : category ≠ "follow_up" := by
      simp only [category_order, List.mem_cons, List.not_mem_nil, or_false] at hcat
      rcases hcat with rfl | rfl | rfl | rfl | rfl <;> decide
    unfold gen_for_category
    rw [if_pos (answered_categories_contains questions category hne (h category hcat))]
  have g1 := g "problem_definition" (by simp [category_order])
  have g2 := g "target_user" (by simp [category_order])
  have g3 := g "solution" (by simp [category_order])
  have g4 := g "success_metrics" (by simp [category_order])
  have g5 := g "constraints" (by simp [category_order])
  unfold generate_next_question category_order
  simp [List.findSome?_cons, g1, g2, g3, g4, g5]

theorem C8_sequencer_exhaustion_witness :
    generate_next_question
      [ Question.mk "problem_1" "problem_definition" "q1" true none,
        Question.mk "target_user_1" "target_user" "q2" true none,
        Question.mk "solution_1" "solution" "q3" true none,
        Question.mk "success_metrics_1" "success_metrics" "q4" true none,
        Question.mk "constraints_1" "constraints" "q5" true none ] = none :=
  C8_sequencer_exhaustion _ (by decide)

/-! ### Claim C4 -/

theorem problem_points_le (answers : AnswerMap) : problem_points answers ≤ 20 := by
  simp only [problem_points]
  generalize answers.filter (fun kv => hasPre "problem_" kv.1) = l
  cases l with
  | nil => simp
  | cons a rest => dsimp only; split_ifs <;> omega

theorem user_points_le (answers : AnswerMap) : user_points answers ≤ 20 := by
  simp only [user_points]
  generalize answers.filter (fun kv => hasPre "target_user" kv.1) = l
  cases l with
  | nil => simp
  | cons a rest => dsimp only; split_ifs <;> omega

theorem listHasPre_trans :
    ∀ (a b c : List Char), listHasPre a b = true → listHasPre b c = true →
      listHasPre a c = true := by
  intro a
  induction a with
  | nil => intro b c _ _; rfl
  | cons x xs ih =>
    intro b c hab hbc
    cases b with
    | nil => simp [listHasPre] at hab
    | cons y ys =>
      cases c with
      | nil => simp [listHasPre] at hbc
      | cons z zs =>
        simp only [listHasPre, Bool.and_eq_true, beq_iff_eq] at hab hbc ⊢
        exact ⟨hab.1.trans hbc.1, ih ys zs hab.2 hbc.2⟩

/-- A filter by a longer prefix is empty whenever the filter by one of its
own prefixes is empty. -/
theorem filter_sub_empty (p q : String) (answers : AnswerMap)
    (hpq : listHasPre q.data p.data = true)
    (h : answers.filter (fun kv => hasPre q kv.1) = []) :
    answers.filter (fun kv => hasPre p kv.1) = [] := by
  rw [List.filter_eq_nil_iff] at h ⊢
  intro kv hkv hp
  apply h kv hkv
  unfold hasPre at hp ⊢
  exact listHasPre_trans q.data p.data kv.1.data hpq hp

/-- C4 counterexample: with one `problem_definition` answer, one
`target_user` answer and nothing else, the weak-area report does not
contain the claimed string `"Missing: success_metrics"` — the code replaces
underscores with spaces. -/
theorem C4_counterexample :
    "Missing: success_metrics" ∉
      identify_weak_areas
        [("problem_definition_1", ⟨"We lose leads in our pipeline"⟩),
         ("target_user_1", ⟨"Sales reps at small agencies"⟩)] := by
  decide

/-- C4 amended: with exactly one answer under `problem_definition`, one
under `target_user` and none under the other three categories, finalize
fails and the weak-area report is exactly `"Needs more detail: problem
definition"`, `"Needs more detail: target user"`, `"Missing: solution"`,
`"Missing: success metrics"`, `"Missing: constraints"` (spaces, not
underscores). -/
theorem C4_weak_areas_missing_spaces (answers : AnswerMap)
    (h1 : (answers.filter fun kv => hasPre "problem_definition" kv.1).length = 1)
    (h2 : (answers.filter fun kv => hasPre "target_user" kv.1).length = 1)
    (h3 : answers.filter (fun kv => hasPre "solution" kv.1) = [])
    (h4 : answers.filter (fun kv => hasPre "success_metrics" kv.1) = [])
    (h5 : answers.filter (fun kv => hasPre "constraints" kv.1) = []) :
    (∀ data : ProjectData, data.objective_clarification.answers = answers →
      (define_project_objective data).1.success = false ∧
      (define_project_objective data).2 = data) ∧
    identify_weak_areas answers =
      ["Needs more detail: problem definition", "Needs more detail: target user",
       "Missing: solution", "Missing: success metrics", "Missing: constraints"] := by
  have hsol : answers.filter (fun kv => hasPre "solution_" kv.1) = [] :=
    filter_sub_empty _ _ answers (by decide) h3
  have hscore : calculate_clarity_score answers < 80 := by
    unfold calculate_clarity_score
    have e3 : solution_points answers = 0 := by
      unfold solution_points
      rw [hsol]
      simp
    have e4 : metrics_points answers = 0 := by
      unfold metrics_points
      rw [h4]
      simp
    have e5 : constraints_points answers = 0 := by
      unfold constraints_points
      rw [h5]
      simp
    have b1 := problem_points_le answers
    have b2 := user_points_le answers
    rw [e3, e4, e5]
    omega
  constructor
  · intro data hd
    have hs : calculate_clarity_score data.objective_clarification.answers < 80 := by
      rw [hd]; exact hscore
    have hc := define_fails_below data hs
    exact ⟨hc.1, hc.2.2.1⟩
  · unfold identify_weak_areas categories_list
    have ne1 : answers.filter (fun kv => hasPre "problem_definition" kv.1) ≠ [] := by
      intro he; rw [he] at h1; simp at h1
    have ne2 : answers.filter (fun kv => hasPre "target_user" kv.1) ≠ [] := by
      intro he; rw [he] at h2; simp at h2
    simp [List.flatMap_cons, List.isEmpty_iff, ne1, ne2, h1, h2, h3, h4, h5]
    decide

theorem C4_weak_areas_missing_spaces_witness :
    (define_project_objective
      (ProjectData.mk none
        (Clarification.mk "in_progress" "d" []
          [("problem_definition_1", ⟨"We lose leads in our pipeline"⟩),
           ("target_user_1", ⟨"Sales reps at small agencies"⟩)] none))).1.success = false ∧
    identify_weak_areas
      [("problem_definition_1", ⟨"We lose leads in our pipeline"⟩),
       ("target_user_1", ⟨"Sales reps at small agencies"⟩)] =
      ["Needs more detail: problem definition", "Needs more detail: target user",
       "Missing: solution", "Missing: success metrics", "Missing: constraints"] := by
  have h := C4_weak_areas_missing_spaces
    [("problem_definition_1", ⟨"We lose leads in our pipeline"⟩),
     ("target_user_1", ⟨"Sales reps at small agencies"⟩)]
    (by decide) (by decide) (by decide) (by decide) (by decide)
  exact ⟨(h.1 _ rfl).1, h.2⟩

/-! ### Claim C3 -/

theorem lookup_map_replace (k : String) (v : AnswerRec) :
    ∀ m : AnswerMap, m.any (fun kv => kv.1 == k) = true →
      lookupAnswer k (m.map fun kv => if kv.1 == k then (k, v) else kv) = some v := by
  intro m
  induction m with
  | nil => intro h; simp at h
  | cons kv rest ih =>
    intro h
    by_cases hk : (kv.1 == k) = true
    · simp only [List.map_cons, if_pos hk]
      unfold lookupAnswer
      rw [List.find?_cons_of_pos _ (by simp)]
    · simp only [List.map_cons, if_neg hk]
      have hrest : rest.any (fun kv => kv.1 == k) = true := by
        simp only [List.any_cons, Bool.or_eq_true] at h
        rcases h with h | h
        · exact absurd h hk
        · exact h
      unfold lookupAnswer at ih ⊢
      rw [List.find?_cons_of_neg _ (by simpa using hk)]
      exact ih hrest

theorem lookup_append_fresh (k : String) (v : AnswerRec) :
    ∀ m : AnswerMap, m.any (fun kv => kv.1 == k) = false →
      lookupAnswer k (m ++ [(k, v)]) = some v := by
  intro m
  induction m with
  | nil =>
    intro _
    unfold lookupAnswer
    rw [List.nil_append, List.find?_cons_of_pos _ (by simp)]
  | cons kv rest ih =>
    intro h
    simp only [List.any_cons, Bool.or_eq_false_iff] at h
    unfold lookupAnswer at ih ⊢
    rw [List.cons_append, List.find?_cons_of_neg _ (by simp [h.1])]
    exact ih h.2

/-- Dict assignment then lookup at the same key yields the stored value. -/
theorem lookup_insert (m : AnswerMap) (k : String) (v : AnswerRec) :
    lookupAnswer k (insertAnswer m k v) = some v := by
  unfold insertAnswer
  by_cases hany : m.any (fun kv => kv.1 == k) = true
  · rw [if_pos hany]
    exact lookup_map_replace k v m hany
  · rw [if_neg hany]
    exact lookup_append_fresh k v m (Bool.eq_false_iff.mpr hany)

/-- Marking an id that no question carries leaves the question list
unchanged. -/
theorem mark_noop : ∀ (qs : List Question) (k : String),
    (∀ q ∈ qs, q.id ≠ k) → mark_answered qs k = qs := by
  intro qs
  induction qs with
  | nil => intro k _; rfl
  | cons q rest ih =>
    intro k h
    unfold mark_answered
    rw [if_neg (by simp [h q (by simp)])]
    rw [ih k fun q' hq' => h q' (by simp [hq'])]

/-- After `answer_objective_question`, whatever branch was taken, the
submitted answer is present in the stored answer mapping under the
submitted id, whatever the resulting question list is
marked list. -/
theorem answer_records (data : ProjectData) (question_id answer : String) :
    lookupAnswer question_id
      (answer_objective_question data question_id answer).2.objective_clarification.answers
      = some ⟨answer⟩ := by
  unfold answer_objective_question answer_clar
  dsimp only
  split
  · exact lookup_insert _ _ _
  · split
    · exact lookup_insert _ _ _
    · split
      · exact lookup_insert _ _ _
      · exact lookup_insert _ _ _

/-- The status of every `answer_objective_question` result is one of the
four nominal statuses; there is no error status. -/
theorem answer_status_cases (data : ProjectData) (question_id answer : String) :
    (answer_objective_question data question_id answer).1.status = "needs_clarification" ∨
    (answer_objective_question data question_id answer).1.status = "continue" ∨
    (answer_objective_question data question_id answer).1.status = "completed" ∨
    (answer_objective_question data question_id answer).1.status = "needs_improvement" := by
  unfold answer_objective_question answer_clar
  dsimp only
  split
  · exact Or.inl rfl
  · split
    · exact Or.inr (Or.inl rfl)
    · split
      · exact Or.inr (Or.inr (Or.inl rfl))
      · exact Or.inr (Or.inr (Or.inr rfl))

/-- C3 counterexample: submitting an answer for the unknown id `bogus_q`
against a fresh session records it silently (it lands in the answer
mapping) and returns the normal `continue` status — no `UnknownQuestionId`
error condition is surfaced. -/
theorem C3_counterexample :
    (∀ q ∈ (clarify_session "demo").questions, q.id ≠ "bogus_q") ∧
    lookupAnswer "bogus_q"
      (answer_clar (clarify_session "demo") "bogus_q" "hello").2.answers =
      some ⟨"hello"⟩ ∧
    (answer_clar (clarify_session "demo") "bogus_q" "hello").1.status = "continue" := by
  decide

/-- C3 amended: an answer submitted for a question id not present in the
session is silently recorded into the answer mapping (the marking loop does
nothing), and the call returns one of the four nominal statuses — no
`UnknownQuestionId` error condition exists in the code. -/
theorem C3_unknown_id_recorded (data : ProjectData) (question_id answer : String)
    (h : ∀ q ∈ data.objective_clarification.questions, q.id ≠ question_id) :
    mark_answered data.objective_clarification.questions question_id
      = data.objective_clarification.questions ∧
    lookupAnswer question_id
      (answer_objective_question data question_id answer).2.objective_clarification.answers
      = some ⟨answer⟩ ∧
    ((answer_objective_question data question_id answer).1.status = "needs_clarification" ∨
     (answer_objective_question data question_id answer).1.status = "continue" ∨
     (answer_objective_question data question_id answer).1.status = "completed" ∨
     (answer_objective_question data question_id answer).1.status = "needs_improvement") :=
  ⟨mark_noop _ _ h, answer_records data question_id answer,
   answer_status_cases data question_id answer⟩

theorem C3_unknown_id_recorded_witness :
    mark_answered (ProjectData.mk none (clarify_session "demo")).objective_clarification.questions
      "bogus_q" = (ProjectData.mk none (clarify_session "demo")).objective_clarification.questions ∧
    lookupAnswer "bogus_q"
      (answer_objective_question (ProjectData.mk none (clarify_session "demo"))
        "bogus_q" "hello").2.objective_clarification.answers = some ⟨"hello"⟩ ∧
    ((answer_objective_question (ProjectData.mk none (clarify_session "demo"))
        "bogus_q" "hello").1.status = "needs_clarification" ∨
     (answer_objective_question (ProjectData.mk none (clarify_session "demo"))
        "bogus_q" "hello").1.status = "continue" ∨
     (answer_objective_question (ProjectData.mk none (clarify_session "demo"))
        "bogus_q" "hello").1.status = "completed" ∨
     (answer_objective_question (ProjectData.mk none (clarify_session "demo"))
        "bogus_q" "hello").1.status = "needs_improvement") :=
  C3_unknown_id_recorded (ProjectData.mk none (clarify_session "demo"))
    "bogus_q" "hello" (by decide)

/-! ### Claim C6 -/

/-- The concatenation (with trailing spaces) of all answers whose id starts
with the prefix `p`, in mapping order. -/
def catPre (p : String) : AnswerMap → String
  | [] => ""
  | kv :: rest =>
    if hasPre p kv.1 then kv.2.answer ++ " " ++ catPre p rest else catPre p rest

theorem summary_fold (l : AnswerMap) : ∀ acc : Summary,
    l.foldl summary_step acc =
      ⟨acc.problem ++ catPre "problem_" l,
       acc.target_user ++ catPre "target_user" l,
       acc.solution ++ catPre "solution_" l,
       acc.success_metrics ++ catPre "success_metrics" l,
       acc.constraints ++ catPre "constraints" l⟩ := by
  induction l with
  | nil =>
    intro acc
    simp only [List.foldl_nil, catPre, String.append_empty]
  | cons kv rest ih =>
    intro acc
    rw [List.foldl_cons, ih (summary_step acc kv)]
    unfold summary_step
    by_cases p1 : hasPre "problem_" kv.1 = true
    · have e2 : hasPre "target_user" kv.1 = false :=
        hasPre_excl_false (by decide) (by decide) p1
      have e3 : hasPre "solution_" kv.1 = false :=
        hasPre_excl_false (by decide) (by decide) p1
      have e4 : hasPre "success_metrics" kv.1 = false :=
        hasPre_excl_false (by decide) (by decide) p1
      have e5 : hasPre "constraints" kv.1 = false :=
        hasPre_excl_false (by decide) (by decide) p1
      simp [catPre, p1, e2, e3, e4, e5, String.append_assoc]
    · by_cases p2 : hasPre "target_user" kv.1 = true
      · have e3 : hasPre "solution_" kv.1 = false :=
          hasPre_excl_false (by decide) (by decide) p2
        have e4 : hasPre "success_metrics" kv.1 = false :=
          hasPre_excl_false (by decide) (by decide) p2
        have e5 : hasPre "constraints" kv.1 = false :=
          hasPre_excl_false (by decide) (by decide) p2
        simp [catPre, p1, p2, e3, e4, e5, String.append_assoc]
      · by_cases p3 : hasPre "solution_" kv.1 = true
        · have e4 : hasPre "success_metrics" kv.1 = false :=
            hasPre_excl_false (by decide) (by decide) p3
          have e5 : hasPre "constraints" kv.1 = false :=
            hasPre_excl_false (by decide) (by decide) p3
          simp [catPre, p1, p2, p3, e4, e5, String.append_assoc]
        · by_cases p4 : hasPre "success_metrics" kv.1 = true
          · have e5 : hasPre "constraints" kv.1 = false :=
              hasPre_excl_false (by decide) (by decide) p4
            simp [catPre, p1, p2, p3, p4, e5, String.append_assoc]
          · by_cases p5 : hasPre "constraints" kv.1 = true
            · simp [catPre, p1, p2, p3, p4, p5, String.append_assoc]
            · simp [catPre, p1, p2, p3, p4, p5]

/-- C6 counterexample: an answer recorded under the follow-up id
`problem_1_followup` (the id the code creates for a follow-up to
`problem_1`) IS included in the problem field of the summary, which the claim
says must stay empty here. -/
theorem C6_counterexample :
    (generate_objective_summary [("problem_1_followup", ⟨"X"⟩)]).problem = "X" ∧
    (generate_objective_summary [("problem_1_followup", ⟨"X"⟩)]).problem ≠ "" := by
  decide

/-- C6 amended: each field of the objective summary is the stripped
space-separated concatenation of ALL answers whose id carries that
category prefix — including answers recorded under follow-up ids, whose
ids retain the prefix of the parent question. -/
theorem C6_summary_concatenates_prefix_matches (answers : AnswerMap) :
    generate_objective_summary answers =
      ⟨pyStrip (catPre "problem_" answers),
       pyStrip (catPre "target_user" answers),
       pyStrip (catPre "solution_" answers),
       pyStrip (catPre "success_metrics" answers),
       pyStrip (catPre "constraints" answers)⟩ := by
  unfold generate_objective_summary
  rw [summary_fold]
  simp [String.empty_append]

/-! ### Claim C10: id shapes along the normal flow -/

/-- The id shapes a question can have in a normal-flow session: the
hardcoded `problem_1`, its follow-up, or an id bearing one of the four
later category names (sequencer ids and their follow-ups). -/
def ok_id (i : String) : Bool :=
  i == "problem_1" || i == "problem_1_followup" ||
  hasPre "target_user" i || hasPre "solution" i ||
  hasPre "success_metrics" i || hasPre "constraints" i

theorem ok_id_not_pd (i : String) (h : ok_id i = true) :
    hasPre "problem_definition" i = false := by
  simp only [ok_id, Bool.or_eq_true, beq_iff_eq] at h
  rcases h with ((((h | h) | h) | h) | h) | h
  · subst h; decide
  · subst h; decide
  · exact hasPre_excl_false (by decide) (by decide) h
  · exact hasPre_excl_false (by decide) (by decide) h
  · exact hasPre_excl_false (by decide) (by decide) h
  · exact hasPre_excl_false (by decide) (by decide) h

/-- Invariant maintained by the normal flow. -/
structure Inv (c : Clarification) : Prop where
  ids_ok : ∀ q ∈ c.questions, ok_id q.id = true
  ans_keys : ∀ kv ∈ c.answers, ∃ q ∈ c.questions, q.id = kv.1
  cur_mem : ∀ qid, c.current_question_id = some qid → ∃ q ∈ c.questions, q.id = qid
  pd_cat : ∀ q ∈ c.questions, q.id = "problem_1" → q.category = "problem_definition"
  pd_done : ∃ q ∈ c.questions, q.id = "problem_1" ∧
    (q.answered = true ∨ c.current_question_id = some "problem_1")

theorem mark_preserves (qs : List Question) (k : String) :
    ∀ q' ∈ mark_answered qs k, ∃ q ∈ qs, q'.id = q.id ∧ q'.category = q.category := by
  induction qs with
  | nil => intro q' hq'; simp [mark_answered] at hq'
  | cons q rest ih =>
    intro q' hq'
    unfold mark_answered at hq'
    by_cases hk : (q.id == k) = true
    · rw [if_pos hk] at hq'
      rcases List.mem_cons.mp hq' with rfl | hmem
      · exact ⟨q, List.mem_cons_self _ _, rfl, rfl⟩
      · exact ⟨q', List.mem_cons_of_mem _ hmem, rfl, rfl⟩
    · rw [if_neg hk] at hq'
      rcases List.mem_cons.mp hq' with rfl | hmem
      · exact ⟨q', List.mem_cons_self _ _, rfl, rfl⟩
      · rcases ih q' hmem with ⟨q0, hq0, he⟩
        exact ⟨q0, List.mem_cons_of_mem _ hq0, he⟩

theorem mark_keeps (qs : List Question) (k : String) :
    ∀ q ∈ qs, ∃ q' ∈ mark_answered qs k,
      q'.id = q.id ∧ q'.category = q.category ∧ (q.answered = true → q'.answered = true) := by
  induction qs with
  | nil => intro q hq; simp at hq
  | cons q0 rest ih =>
    intro q hq
    unfold mark_answered
    by_cases hk : (q0.id == k) = true
    · rw [if_pos hk]
      rcases List.mem_cons.mp hq with rfl | hmem
      · exact ⟨{ q with answered := true }, List.mem_cons_self _ _, rfl, rfl, fun _ => rfl⟩
      · exact ⟨q, List.mem_cons_of_mem _ hmem, rfl, rfl, fun h => h⟩
    · rw [if_neg hk]
      rcases List.mem_cons.mp hq with rfl | hmem
      · exact ⟨q, List.mem_cons_self _ _, rfl, rfl, fun h => h⟩
      · rcases ih q hmem with ⟨q', hq', he⟩
        exact ⟨q', List.mem_cons_of_mem _ hq', he⟩

theorem mark_marks (qs : List Question) (k : String)
    (hex : ∃ q ∈ qs, q.id = k) :
    ∃ q' ∈ mark_answered qs k, q'.id = k ∧ q'.answered = true ∧
      ∃ q ∈ qs, q.id = k ∧ q'.category = q.category := by
  induction qs with
  | nil => rcases hex with ⟨q, hq, _⟩; simp at hq
  | cons q0 rest ih =>
    unfold mark_answered
    by_cases hk : (q0.id == k) = true
    · rw [if_pos hk]
      have hid : q0.id = k := eq_of_beq hk
      exact ⟨{ q0 with answered := true }, List.mem_cons_self _ _, hid, rfl,
        q0, List.mem_cons_self _ _, hid, rfl⟩
    · rw [if_neg hk]
      have hex' : ∃ q ∈ rest, q.id = k := by
        rcases hex with ⟨q, hq, hid⟩
        rcases List.mem_cons.mp hq with rfl | hmem
        · exact absurd (beq_iff_eq.mpr hid) hk
        · exact ⟨q, hmem, hid⟩
      rcases ih hex' with ⟨q', hq', hid', ha', q1, hq1, hid1, hcat1⟩
      exact ⟨q', List.mem_cons_of_mem _ hq', hid', ha',
        q1, List.mem_cons_of_mem _ hq1, hid1, hcat1⟩

theorem insert_keys (m : AnswerMap) (k : String) (v : AnswerRec) :
    ∀ kv' ∈ insertAnswer m k v, kv'.1 = k ∨ ∃ kv ∈ m, kv'.1 = kv.1 := by
  intro kv' h
  unfold insertAnswer at h
  by_cases hany : m.any (fun kv => kv.1 == k) = true
  · rw [if_pos hany] at h
    rcases List.mem_map.mp h with ⟨kv, hkv, heq⟩
    by_cases hb : (kv.1 == k) = true
    · rw [if_pos hb] at heq; subst heq; exact Or.inl rfl
    · rw [if_neg hb] at heq; subst heq; exact Or.inr ⟨kv, hkv, rfl⟩
  · rw [if_neg hany] at h
    rcases List.mem_append.mp h with hm | hs
    · exact Or.inr ⟨kv', hm, rfl⟩
    · rw [List.mem_singleton] at hs; subst hs; exact Or.inl rfl

theorem gen_some_shape (qs : List Question) (ans : List String) (cat : String)
    (q : Question) (h : gen_for_category qs ans cat = some q) :
    q.category = cat ∧ hasPre cat q.id = true := by
  unfold gen_for_category at h
  dsimp only at h
  split_ifs at h
  rw [Option.some.injEq] at h
  subst h
  exact ⟨rfl, hasPre_append _ _ _ (hasPre_self_append cat "_")⟩

theorem gen_none_of_contains (qs : List Question) (ans : List String) (cat : String)
    (h : ans.contains cat = true) : gen_for_category qs ans cat = none := by
  unfold gen_for_category
  rw [if_pos h]

theorem findSome?_some_prop {α β : Type} (P : β → Prop) :
    ∀ (l : List α) (f : α → Option β),
      (∀ a ∈ l, ∀ b, f a = some b → P b) → ∀ b, l.findSome? f = some b → P b := by
  intro l
  induction l with
  | nil => intro f _ b h; simp [List.findSome?] at h
  | cons a rest ih =>
    intro f hf b h
    rw [List.findSome?_cons] at h
    cases hfa : f a with
    | some c =>
      rw [hfa] at h
      have : c = b := by injection h
      subst this
      exact hf a (List.mem_cons_self _ _) c hfa
    | none =>
      rw [hfa] at h
      exact ih f (fun a' ha' => hf a' (List.mem_cons_of_mem _ ha')) b h

theorem inv_start (d : String) : Inv (clarify_session d) := by
  constructor
  · intro q hq
    simp only [clarify_session, List.mem_singleton] at hq
    subst hq
    decide
  · intro kv hkv
    simp [clarify_session] at hkv
  · intro qid h
    simp only [clarify_session, Option.some.injEq] at h
    exact ⟨first_question, List.mem_singleton_self _, by rw [← h]; rfl⟩
  · intro q hq _
    simp only [clarify_session, List.mem_singleton] at hq
    subst hq
    rfl
  · exact ⟨first_question, List.mem_singleton_self _, rfl, Or.inr rfl⟩

theorem inv_step (c : Clarification) (qid ans : String) (hc : Inv c)
    (hcur : c.current_question_id = some qid) :
    Inv (answer_clar c qid ans).2 := by
  obtain ⟨h1, h2, h3, h4, h5⟩ := hc
  have hqmem : ∃ q ∈ c.questions, q.id = qid := h3 qid hcur
  have hqok : ok_id qid = true := by
    rcases hqmem with ⟨q, hq, hid⟩
    rw [← hid]
    exact h1 q hq
  have m_ok : ∀ q' ∈ mark_answered c.questions qid, ok_id q'.id = true := by
    intro q' hq'
    rcases mark_preserves c.questions qid q' hq' with ⟨q, hq, hid, _⟩
    rw [hid]
    exact h1 q hq
  have m_pd : ∀ q' ∈ mark_answered c.questions qid,
      q'.id = "problem_1" → q'.category = "problem_definition" := by
    intro q' hq' hid'
    rcases mark_preserves c.questions qid q' hq' with ⟨q, hq, hid, hcat⟩
    rw [hcat]
    exact h4 q hq (by rw [← hid]; exact hid')
  have m_keys : ∀ k', (∃ q ∈ c.questions, q.id = k') →
      ∃ q' ∈ mark_answered c.questions qid, q'.id = k' := by
    intro k' hk'
    rcases hk' with ⟨q, hq, hid⟩
    rcases mark_keeps c.questions qid q hq with ⟨q', hq', hid', _, _⟩
    exact ⟨q', hq', hid'.trans hid⟩
  have hpd_ans : ∃ q' ∈ mark_answered c.questions qid,
      q'.id = "problem_1" ∧ q'.answered = true := by
    rcases h5 with ⟨q, hq, hid, hcase⟩
    rcases hcase with hansw | hcur1
    · rcases mark_keeps c.questions qid q hq with ⟨q', hq', hid', _, himp⟩
      exact ⟨q', hq', hid'.trans hid, himp hansw⟩
    · have hq1 : qid = "problem_1" := by
        rw [hcur] at hcur1
        exact (Option.some.injEq _ _ ▸ hcur1)
      subst hq1
      rcases mark_marks c.questions "problem_1" ⟨q, hq, hid⟩ with ⟨q', hq', hid', ha', _⟩
      exact ⟨q', hq', hid', ha'⟩
  have ans_keys' : ∀ kv ∈ insertAnswer c.answers qid ⟨ans⟩,
      ∃ q' ∈ mark_answered c.questions qid, q'.id = kv.1 := by
    intro kv hkv
    rcases insert_keys c.answers qid ⟨ans⟩ kv hkv with hkeq | ⟨kv0, hkv0, hkeq⟩
    · rcases m_keys qid hqmem with ⟨q', hq', hid'⟩
      exact ⟨q', hq', hid'.trans hkeq.symm⟩
    · rcases h2 kv0 hkv0 with ⟨q0, hq0, hid0⟩
      rcases m_keys kv0.1 ⟨q0, hq0, hid0⟩ with ⟨q', hq', hid'⟩
      exact ⟨q', hq', hid'.trans hkeq.symm⟩
  have hcontains : (answered_categories (mark_answered c.questions qid)).contains
      "problem_definition" = true := by
    rcases hpd_ans with ⟨q', hq', hid', hansw'⟩
    exact answered_categories_contains _ _ (by decide)
      ⟨q', hq', m_pd q' hq' hid', hansw'⟩
  have hgen_prop : ∀ nq, generate_next_question (mark_answered c.questions qid) = some nq →
      (hasPre "target_user" nq.id = true ∨ hasPre "solution" nq.id = true ∨
       hasPre "success_metrics" nq.id = true ∨ hasPre "constraints" nq.id = true) := by
    intro nq hnq
    unfold generate_next_question at hnq
    refine findSome?_some_prop
      (fun b => hasPre "target_user" b.id = true ∨ hasPre "solution" b.id = true ∨
        hasPre "success_metrics" b.id = true ∨ hasPre "constraints" b.id = true)
      category_order _ ?_ nq hnq
    intro cat hcat b hb
    simp only [category_order, List.mem_cons, List.not_mem_nil, or_false] at hcat
    rcases hcat with rfl | rfl | rfl | rfl | rfl
    · rw [gen_none_of_contains _ _ _ hcontains] at hb
      exact absurd hb (by simp)
    · exact Or.inl (gen_some_shape _ _ _ _ hb).2
    · exact Or.inr (Or.inl (gen_some_shape _ _ _ _ hb).2)
    · exact Or.inr (Or.inr (Or.inl (gen_some_shape _ _ _ _ hb).2))
    · exact Or.inr (Or.inr (Or.inr (gen_some_shape _ _ _ _ hb).2))
  unfold answer_clar
  dsimp only
  split
  · -- vague: a follow-up question is appended
    rename_i hv
    have hnotf : containsSubstr "_followup" qid = false := by
      cases hcf : containsSubstr "_followup" qid with
      | false => rfl
      | true =>
        have := detect_followup_eq ans qid hcf
        rw [this] at hv
        exact absurd hv (by simp)
    have hfq_ok : ok_id (qid ++ "_followup") = true := by
      have hcases := hqok
      simp only [ok_id, Bool.or_eq_true, beq_iff_eq] at hcases
      rcases hcases with ((((h | h) | h) | h) | h) | h
      · subst h; decide
      · subst h; exact absurd hnotf (by decide)
      · simp [ok_id, hasPre_append _ _ _ h]
      · simp [ok_id, hasPre_append _ _ _ h]
      · simp [ok_id, hasPre_append _ _ _ h]
      · simp [ok_id, hasPre_append _ _ _ h]
    have hfq_ne : (qid ++ "_followup") ≠ "problem_1" := by
      intro he
      have hself := containsSubstr_suffix_self qid "_followup"
      rw [he] at hself
      exact absurd hself (by decide)
    constructor
    · intro q' hq'
      rcases List.mem_append.mp hq' with hm | hs
      · exact m_ok q' hm
      · rw [List.mem_singleton] at hs
        subst hs
        exact hfq_ok
    · intro kv hkv
      rcases ans_keys' kv hkv with ⟨q', hq', hid'⟩
      exact ⟨q', List.mem_append_left _ hq', hid'⟩
    · intro qid' hq'
      simp only [Option.some.injEq] at hq'
      exact ⟨_, List.mem_append_right _ (List.mem_singleton_self _), hq'⟩
    · intro q' hq' hid'
      rcases List.mem_append.mp hq' with hm | hs
      · exact m_pd q' hm hid'
      · rw [List.mem_singleton] at hs
        subst hs
        exact absurd hid' hfq_ne
    · rcases hpd_ans with ⟨q', hq', hid', ha'⟩
      exact ⟨q', List.mem_append_left _ hq', hid', Or.inl ha'⟩
  · -- not vague: sequencer
    split
    · -- a next question is appended
      rename_i next_q hgen
      have hnp := hgen_prop next_q hgen
      have hnq_ok : ok_id next_q.id = true := by
        rcases hnp with h | h | h | h <;> simp [ok_id, h]
      have hnq_ne : next_q.id ≠ "problem_1" := by
        intro he
        rcases hnp with h | h | h | h <;> (rw [he] at h; exact absurd h (by decide))
      constructor
      · intro q' hq'
        rcases List.mem_append.mp hq' with hm | hs
        · exact m_ok q' hm
        · rw [List.mem_singleton] at hs
          subst hs
          exact hnq_ok
      · intro kv hkv
        rcases ans_keys' kv hkv with ⟨q', hq', hid'⟩
        exact ⟨q', List.mem_append_left _ hq', hid'⟩
      · intro qid' hq'
        simp only [Option.some.injEq] at hq'
        exact ⟨next_q, List.mem_append_right _ (List.mem_singleton_self _), hq'⟩
      · intro q' hq' hid'
        rcases List.mem_append.mp hq' with hm | hs
        · exact m_pd q' hm hid'
        · rw [List.mem_singleton] at hs
          subst hs
          exact absurd hid' hnq_ne
      · rcases hpd_ans with ⟨q', hq', hid', ha'⟩
        exact ⟨q', List.mem_append_left _ hq', hid', Or.inl ha'⟩
    · -- no next question: scoring, questions unchanged
      split
      ·
        constructor
        · intro q' hq'
          exact m_ok q' hq'
        · intro kv hkv
          exact ans_keys' kv hkv
        · intro qid' hq'
          have he : qid' = qid := by
            rw [hcur] at hq'
            exact (Option.some.injEq _ _ ▸ hq').symm
          rw [he]
          exact m_keys qid hqmem
        · intro q' hq' hid'
          exact m_pd q' hq' hid'
        · rcases hpd_ans with ⟨q', hq', hid', ha'⟩
          exact ⟨q', hq', hid', Or.inl ha'⟩
      ·
        constructor
        · intro q' hq'
          exact m_ok q' hq'
        · intro kv hkv
          exact ans_keys' kv hkv
        · intro qid' hq'
          have he : qid' = qid := by
            rw [hcur] at hq'
            exact (Option.some.injEq _ _ ▸ hq').symm
          rw [he]
          exact m_keys qid hqmem
        · intro q' hq' hid'
          exact m_pd q' hq' hid'
        · rcases hpd_ans with ⟨q', hq', hid', ha'⟩
          exact ⟨q', hq', hid', Or.inl ha'⟩

theorem inv_reachable : ∀ c : Clarification, Reachable c → Inv c := by
  intro c h
  induction h with
  | start d => exact inv_start d
  | step c qid ans _ hcur ih => exact inv_step c qid ans ih hcur

theorem weak_missing_pd (c : Clarification) (hc : Inv c) :
    "Missing: problem definition" ∈ identify_weak_areas c.answers := by
  have hfil : c.answers.filter (fun kv => hasPre "problem_definition" kv.1) = [] := by
    rw [List.filter_eq_nil_iff]
    intro kv hkv
    rcases hc.ans_keys kv hkv with ⟨q, hq, hid⟩
    have hnp := ok_id_not_pd q.id (hc.ids_ok q hq)
    rw [hid] at hnp
    simp [hnp]
  unfold identify_weak_areas categories_list
  rw [List.flatMap_cons]
  apply List.mem_append_left
  rw [hfil]
  simp only [List.isEmpty_nil, if_pos, List.mem_singleton]
  decide

/-- C10: the first problem question is created with id `problem_1`; that id
is matched by the clarity scorer prefix `problem_` but not by the
weak-area reporter prefix `problem_definition`; consequently every
session produced by the normal flow — even after `problem_1` is answered —
reports `"Missing: problem definition"` among its weak areas. -/
theorem C10_first_problem_question_prefix_mismatch :
    first_question.id = "problem_1" ∧
    hasPre "problem_" "problem_1" = true ∧
    hasPre "problem_definition" "problem_1" = false ∧
    ∀ c : Clarification, Reachable c →
      "Missing: problem definition" ∈ identify_weak_areas c.answers :=
  ⟨rfl, by decide, by decide,
   fun c hr => weak_missing_pd c (inv_reachable c hr)⟩

theorem C10_first_problem_question_prefix_mismatch_witness :
    "Missing: problem definition" ∈ identify_weak_areas (clarify_session "demo").answers :=
  C10_first_problem_question_prefix_mismatch.2.2.2 (clarify_session "demo")
    (Reachable.start "demo")

end ProjectMCP
